import Mathlib

/-!
Shallow embedding of `synchronizer/l2_sync/l2_shared/sync_trusted_state.go`
(package `l2_shared` of the x1-node repository) and proofs about it.

The engine (`SyncTrustedStateTemplate`) is embedded as pure functions over an
explicit environment `Env` that describes the behaviour of the collaborators
(`ZkEVMClientInterface`, `StateInterface`, `BatchExecutor`, `SyncInterface`,
and the `pgx.Tx` commit/rollback results).  Every collaborator call made by
the engine is recorded as an `Event` so that claims about which calls occur
(fetches, transaction opens, store lookups, commits, rollbacks) are statable.
Machine integers (`uint64`) are modelled as `Nat` with wraparound made
explicit at both places the Go code can wrap: `trustedBatch.Number - 1` is
`pred64` (subtraction modulo `2 ^ 64`), and the loop counter increment
`batchNumberToSync++` is `(n + 1) % 2 ^ 64`.  Because of the latter the Go
loop need not terminate (with tip `2 ^ 64 - 1` the loop condition holds for
every counter value), so the loop is given a `fuel` bound with an explicit
`RunResult.more` outcome for "still running after that many iterations".
-/

set_option maxRecDepth 8000

namespace X1Sync

/-- Opaque error values (`error` in Go); the distinguished `state.ErrNotFound`
is modelled structurally by `LookupResult.notFound` instead. -/
abbrev Err := Nat

/-- Embedding of `state.Batch` (a locally persisted batch): its `BatchNumber`
field plus the rest of its content, opaque to the engine. -/
structure Batch where
  batchNumber : Nat
  data : Nat
deriving DecidableEq

/-- Embedding of `types.Batch` (a batch as reported by the remote zkEVM RPC):
its reported `Number` (a `uint64`) plus opaque content. -/
structure RemoteBatch where
  number : Nat
  data : Nat
deriving DecidableEq

/-- Embedding of `StateRootEntry`: batch number and state root. -/
structure StateRootEntry where
  batchNumber : Nat
  stateRoot : Nat
deriving DecidableEq

/-- Embedding of `TrustedState`: `lastTrustedBatches` is the 2-slot window
(slot 0 = current batch, slot 1 = previous batch; entries are `*state.Batch`
in Go, hence `Option Batch` here), plus the last state root entry. -/
structure TrustedState where
  lastTrustedBatches : List (Option Batch)
  lastStateRoot : Option StateRootEntry
deriving DecidableEq

/-- Result of `StateInterface.GetBatchByNumber`: a batch, the distinguished
`state.ErrNotFound`, or some other error. -/
inductive LookupResult where
  | found (b : Batch)
  | notFound
  | failed (e : Err)
deriving DecidableEq

/-- The batch pointer the Go code keeps after a lookup: the batch when found,
`nil` on `state.ErrNotFound` (the code continues with a nil pointer then). -/
def LookupResult.toOpt : LookupResult → Option Batch
  | .found b => some b
  | _ => none

/-- Observable collaborator calls made by the engine during one call, in
order.  `fetched n` = `zkEVMClient.BatchByNumber(n)`, `txBegan n` = a
successful `BeginStateTransaction` for the iteration of batch `n`,
`lookedUp m` = `state.GetBatchByNumber(m)`, `processed n` =
`steps.ProcessTrustedBatch` for batch `n`, `flushChecked n` =
`sync.CheckFlushID`, `committed n` = a successful `dbTx.Commit`,
`rolledBack n` = a `dbTx.Rollback` attempt. -/
inductive Event where
  | fetched (n : Nat)
  | txBegan (n : Nat)
  | lookedUp (n : Nat)
  | processed (n : Nat)
  | flushChecked (n : Nat)
  | committed (n : Nat)
  | rolledBack (n : Nat)
deriving DecidableEq

/-- `uint64` decrement, as in the Go expression `trustedBatch.Number - 1`:
subtraction wraps modulo `2 ^ 64`, so `pred64 0 = 2 ^ 64 - 1`. -/
def pred64 (n : Nat) : Nat := (n + (2 ^ 64 - 1)) % 2 ^ 64

/-- Behaviour of all collaborators during one call to the engine.
`tip` is the result of `zkEVMClient.BatchNumber`; `fetch n` the result of
`zkEVMClient.BatchByNumber(n)`; `beginTx n` the error (if any) of
`BeginStateTransaction` in the iteration for batch `n`; `store n m` the
result of `GetBatchByNumber(m)` under the transaction of batch `n`;
`process` is `BatchExecutor.ProcessTrustedBatch`; `checkFlush n` the error
(if any) of `sync.CheckFlushID` under the transaction of batch `n`; and
`commit n` / `rollbackRes n` the errors (if any) of `dbTx.Commit` /
`dbTx.Rollback` for that transaction. -/
structure Env where
  tip : Except Err Nat
  fetch : Nat → Except Err RemoteBatch
  beginTx : Nat → Option Err
  store : Nat → Nat → LookupResult
  process : RemoteBatch → TrustedState → Except Err TrustedState
  checkFlush : Nat → Option Err
  commit : Nat → Option Err
  rollbackRes : Nat → Option Err

/-- Does the window's slot 0 hold a batch numbered `n`?  This is the negation
of the Go guard `len(batches) == 0 || batches[0] == nil || (batches[0] != nil
&& n != batches[0].BatchNumber)` used (with `n = trustedBatch.Number` and
`n = trustedBatch.Number - 1` respectively) at lines 185 and 193. -/
def slot0Matches (batches : List (Option Batch)) (n : Nat) : Bool :=
  match batches with
  | some b :: _ => b.batchNumber == n
  | _ => false

/-- Embedding of `getCurrentBatches`: resolve the 2-slot window for the
remote batch `trustedBatch`, recording every `GetBatchByNumber` call as a
`lookedUp` event.  A `failed` lookup aborts; `notFound` yields a `nil` slot. -/
def getCurrentBatches (store : Nat → LookupResult) (batches : List (Option Batch))
    (trustedBatch : RemoteBatch) : List Event × Except Err (List (Option Batch)) :=
  if slot0Matches batches trustedBatch.number then
    ([], .ok batches)
  else
    match store trustedBatch.number with
    | .failed e => ([.lookedUp trustedBatch.number], .error e)
    | r0 =>
      if slot0Matches batches (pred64 trustedBatch.number) then
        ([.lookedUp trustedBatch.number], .ok [r0.toOpt, batches.headD none])
      else
        match store (pred64 trustedBatch.number) with
        | .failed e =>
            ([.lookedUp trustedBatch.number, .lookedUp (pred64 trustedBatch.number)], .error e)
        | r1 =>
            ([.lookedUp trustedBatch.number, .lookedUp (pred64 trustedBatch.number)],
              .ok [r0.toOpt, r1.toOpt])

/-- Embedding of the `rollback` helper's return value: when `dbTx.Rollback`
fails its error is returned, otherwise the original cause `err` is. -/
def rollbackResult (env : Env) (n : Nat) (err : Err) : Err :=
  match env.rollbackRes n with
  | some rollbackError => rollbackError
  | none => err

/-- One iteration of the `syncTrustedBatchesToFrom` loop body, for batch `n`
with in-memory cache `cache`: fetch the remote batch, begin a transaction,
resolve the window, run the executor, check the flush id, commit; any error
from the window/executor/flush steps goes through `rollback`, a fetch, begin
or commit error is returned as-is.  Returns the event trace and either the
executor's new trusted state (installed in the cache by the loop only after
the successful commit) or the error the Go function would return. -/
def syncIteration (env : Env) (cache : TrustedState) (n : Nat) :
    List Event × Except Err TrustedState :=
  match env.fetch n with
  | .error e => ([.fetched n], .error e)
  | .ok batchToSync =>
    match env.beginTx n with
    | some e => ([.fetched n], .error e)
    | none =>
      let res := getCurrentBatches (env.store n) cache.lastTrustedBatches batchToSync
      let pre : List Event := [.fetched n, .txBegan n] ++ res.1
      match res.2 with
      | .error e => (pre ++ [.rolledBack n], .error (rollbackResult env n e))
      | .ok cbatches =>
        let previousStatus : TrustedState := ⟨cbatches, cache.lastStateRoot⟩
        match env.process batchToSync previousStatus with
        | .error e => (pre ++ [.processed n, .rolledBack n], .error (rollbackResult env n e))
        | .ok newTrustedState =>
          match env.checkFlush n with
          | some e =>
              (pre ++ [.processed n, .flushChecked n, .rolledBack n],
                .error (rollbackResult env n e))
          | none =>
            match env.commit n with
            | some e => (pre ++ [.processed n, .flushChecked n], .error e)
            | none =>
                (pre ++ [.processed n, .flushChecked n, .committed n], .ok newTrustedState)

/-- Status of the loop after a bounded number of iterations.  `done r` means
the Go loop has exited, returning success (`r = none`) or the error `r`;
`more` means the loop has not exited within the allotted iterations and is
still running.  The distinction matters because the Go loop need not
terminate: its `uint64` counter wraps, so with
`lastTrustedStateBatchNumber = 2 ^ 64 - 1` the loop condition holds for
every counter value and only an error can exit it. -/
inductive RunResult where
  | done (r : Option Err)
  | more
deriving DecidableEq

/-- The loop `for batchNumberToSync <= lastTrustedStateBatchNumber` of
`syncTrustedBatchesToFrom`, run for at most `fuel` iterations.  The counter
is a `uint64` in Go, so `batchNumberToSync++` (line 168) wraps: the
successor of the counter is `(n + 1) % 2 ^ 64`.  The result is the event
trace so far, the in-memory cache (`s.TrustedState`) so far, and a
`RunResult`: whenever it is `done r`, the Go call returns exactly `r` with
this trace and cache; `more` means the Go loop is still running after
`fuel` iterations (for `upTo < 2 ^ 64 - 1` enough fuel always reaches
`done`, while at `upTo = 2 ^ 64 - 1` an error-free run never exits). -/
def syncLoopAux : Nat → Env → TrustedState → Nat → Nat →
    List Event × TrustedState × RunResult
  | 0, _, cache, n, upTo =>
    if n ≤ upTo then ([], cache, .more) else ([], cache, .done none)
  | fuel + 1, env, cache, n, upTo =>
    if n ≤ upTo then
      match syncIteration env cache n with
      | (ev, .error e) => (ev, cache, .done (some e))
      | (ev, .ok newTS) =>
        let rest := syncLoopAux fuel env newTS ((n + 1) % 2 ^ 64) upTo
        (ev ++ rest.1, rest.2.1, rest.2.2)
    else ([], cache, .done none)

/-- Embedding of `syncTrustedBatchesToFrom`, as observed after at most
`fuel` loop iterations (the Go function has no such bound; `fuel` only
truncates the possibly infinite run, it never changes a `done` outcome). -/
def syncTrustedBatchesToFrom (fuel : Nat) (env : Env) (cache : TrustedState)
    (latestSyncedBatch lastTrustedStateBatchNumber : Nat) :
    List Event × TrustedState × RunResult :=
  syncLoopAux fuel env cache latestSyncedBatch lastTrustedStateBatchNumber

/-- Embedding of `isSyncrhonizedTrustedState` (name as in the source). -/
def isSyncrhonizedTrustedState (lastTrustedStateBatchNumber latestSyncedBatch : Nat) : Bool :=
  lastTrustedStateBatchNumber < latestSyncedBatch

/-- Embedding of `SyncTrustedState`: normalize a zero `latestSyncedBatch` to
1, ask the remote tip, return early when synchronized, otherwise run the
loop (observed for at most `fuel` iterations).  Returns the event trace, the
final cache and the run status. -/
def SyncTrustedState (fuel : Nat) (env : Env) (cache : TrustedState)
    (latestSyncedBatch : Nat) : List Event × TrustedState × RunResult :=
  let start := if latestSyncedBatch = 0 then 1 else latestSyncedBatch
  match env.tip with
  | .error e => ([], cache, .done (some e))
  | .ok lastTrustedStateBatchNumber =>
    if isSyncrhonizedTrustedState lastTrustedStateBatchNumber start then
      ([], cache, .done none)
    else
      syncTrustedBatchesToFrom fuel env cache start lastTrustedStateBatchNumber

/-- The batch numbers whose transactions were committed, in trace order. -/
def committedList (ev : List Event) : List Nat :=
  ev.filterMap fun e =>
    match e with
    | .committed n => some n
    | _ => none

/-- Contiguity of a window: when both slot 0 and slot 1 are populated,
slot 0's batch number is slot 1's plus one. -/
def windowContiguous (w : List (Option Batch)) : Bool :=
  match w.getD 0 none, w.getD 1 none with
  | some b0, some b1 => b0.batchNumber == b1.batchNumber + 1
  | _, _ => true

/-! ### Basic lemmas about the loop and the traces -/

/-- One-step unfolding of `syncTrustedBatchesToFrom`, recovering the Go
`for` loop exactly: test `n ≤ upTo`, run the body, continue at the wrapped
successor `(n + 1) % 2 ^ 64`. -/
theorem syncFrom_succ (fuel : Nat) (env : Env) (cache : TrustedState) (n upTo : Nat) :
    syncTrustedBatchesToFrom (fuel + 1) env cache n upTo =
      if n ≤ upTo then
        match syncIteration env cache n with
        | (ev, .error e) => (ev, cache, .done (some e))
        | (ev, .ok newTS) =>
          let rest := syncTrustedBatchesToFrom fuel env newTS ((n + 1) % 2 ^ 64) upTo
          (ev ++ rest.1, rest.2.1, rest.2.2)
      else ([], cache, .done none) := rfl

/-- With the counter already past the bound the loop exits at once with
success, whatever the fuel. -/
theorem syncLoopAux_exit (fuel : Nat) (env : Env) (cache : TrustedState) (n upTo : Nat)
    (h : ¬ n ≤ upTo) :
    syncLoopAux fuel env cache n upTo = ([], cache, .done none) := by
  cases fuel <;> simp only [syncLoopAux, if_neg h]

/-- Every event recorded by `getCurrentBatches` is a store lookup. -/
theorem getCurrentBatches_events (store : Nat → LookupResult)
    (batches : List (Option Batch)) (tb : RemoteBatch) :
    ∀ x ∈ (getCurrentBatches store batches tb).1, ∃ m, x = Event.lookedUp m := by
  unfold getCurrentBatches
  split
  · simp
  · rcases store tb.number with b | _ | e <;> simp only
    case failed => simp
    all_goals
      split
      · simp
      · rcases store (pred64 tb.number) with b' | _ | e' <;> simp_all

/-- The trace of one loop iteration starts with the fetch of its batch. -/
theorem syncIteration_trace_shape (env : Env) (cache : TrustedState) (n : Nat) :
    ∃ rest, (syncIteration env cache n).1 = Event.fetched n :: rest := by
  unfold syncIteration
  rcases env.fetch n with e | tb <;> simp only
  · exact ⟨[], rfl⟩
  · rcases env.beginTx n with _ | e <;> simp only
    · rcases hg : (getCurrentBatches (env.store n) cache.lastTrustedBatches tb).2 with
        e | cbatches <;> simp only [hg]
      · exact ⟨_, rfl⟩
      · rcases env.process tb ⟨cbatches, cache.lastStateRoot⟩ with e | ts <;> simp only
        · exact ⟨_, rfl⟩
        · rcases env.checkFlush n with _ | e <;> simp only
          · rcases env.commit n with _ | e <;> simp only
            · exact ⟨_, rfl⟩
            · exact ⟨_, rfl⟩
          · exact ⟨_, rfl⟩
    · exact ⟨[], rfl⟩

theorem committedList_append (a b : List Event) :
    committedList (a ++ b) = committedList a ++ committedList b := by
  simp [committedList]

theorem committedList_of_no_commit (ev : List Event)
    (h : ∀ m, Event.committed m ∉ ev) : committedList ev = [] := by
  unfold committedList
  rw [List.filterMap_eq_nil_iff]
  intro x hx
  cases x with
  | committed m => exact absurd hx (h m)
  | _ => rfl

/-- No `committed` event appears in a `getCurrentBatches` trace. -/
theorem getCurrentBatches_no_commit (store : Nat → LookupResult)
    (batches : List (Option Batch)) (tb : RemoteBatch) (evg : List Event)
    (r : Except Err (List (Option Batch)))
    (hg : getCurrentBatches store batches tb = (evg, r)) :
    ∀ m, Event.committed m ∉ evg := by
  intro m hm
  have h1 : (getCurrentBatches store batches tb).1 = evg := by rw [hg]
  obtain ⟨m', hx⟩ := getCurrentBatches_events store batches tb _ (by rw [h1]; exact hm)
  simp at hx

/-- An iteration that returns an error commits nothing: no `committed` event
appears in its trace. -/
theorem syncIteration_error_no_commit (env : Env) (cache : TrustedState) (n : Nat)
    (ev : List Event) (e : Err) (h : syncIteration env cache n = (ev, .error e)) :
    ∀ m, Event.committed m ∉ ev := by
  unfold syncIteration at h
  rcases hf : env.fetch n with e' | tb <;> simp only [hf] at h
  · injection h with h1 h2
    subst h1
    simp
  · rcases hb : env.beginTx n with _ | e' <;> simp only [hb] at h
    · rcases hg : getCurrentBatches (env.store n) cache.lastTrustedBatches tb with ⟨evg, rg⟩
      have hng := getCurrentBatches_no_commit _ _ _ _ _ hg
      rcases rg with e' | cb <;> simp only [hg] at h
      · injection h with h1 h2
        subst h1
        intro m hm
        simp only [List.cons_append, List.nil_append, List.mem_cons, List.mem_append] at hm
        rcases hm with hm | hm | hm | hm <;> first
          | simp at hm
          | exact hng m hm
      · rcases hp : env.process tb ⟨cb, cache.lastStateRoot⟩ with e' | ts <;>
          simp only [hp] at h
        · injection h with h1 h2
          subst h1
          intro m hm
          simp only [List.cons_append, List.nil_append, List.mem_cons, List.mem_append] at hm
          rcases hm with hm | hm | hm | hm <;> first
            | simp at hm
            | exact hng m hm
        · rcases hc : env.checkFlush n with _ | e' <;> simp only [hc] at h
          · rcases hco : env.commit n with _ | e' <;> simp only [hco] at h
            · exact absurd (congrArg Prod.snd h) (by simp)
            · injection h with h1 h2
              subst h1
              intro m hm
              simp only [List.cons_append, List.nil_append, List.mem_cons,
                List.mem_append] at hm
              rcases hm with hm | hm | hm | hm <;> first
                | simp at hm
                | exact hng m hm
          · injection h with h1 h2
            subst h1
            intro m hm
            simp only [List.cons_append, List.nil_append, List.mem_cons, List.mem_append] at hm
            rcases hm with hm | hm | hm | hm <;> first
              | simp at hm
              | exact hng m hm
    · injection h with h1 h2
      subst h1
      simp

/-- Inversion of a successful iteration: all six collaborator steps
succeeded, the returned state is exactly the executor's output, the trace is
the full success trace, and its only `committed` event is `committed n`. -/
theorem syncIteration_ok_spec (env : Env) (cache : TrustedState) (n : Nat)
    (ev : List Event) (ts : TrustedState) (h : syncIteration env cache n = (ev, .ok ts)) :
    committedList ev = [n] ∧ (∀ m, Event.committed m ∈ ev → m = n) ∧
      ∃ tb evg cb, env.fetch n = .ok tb ∧ env.beginTx n = none ∧
        getCurrentBatches (env.store n) cache.lastTrustedBatches tb = (evg, .ok cb) ∧
        env.process tb ⟨cb, cache.lastStateRoot⟩ = .ok ts ∧ env.checkFlush n = none ∧
        env.commit n = none ∧
        ev = [Event.fetched n, Event.txBegan n] ++ evg ++
          [Event.processed n, Event.flushChecked n, Event.committed n] := by
  unfold syncIteration at h
  rcases hf : env.fetch n with e' | tb <;> simp only [hf] at h
  · exact absurd (congrArg Prod.snd h) (by simp)
  · rcases hb : env.beginTx n with _ | e' <;> simp only [hb] at h
    · rcases hg : getCurrentBatches (env.store n) cache.lastTrustedBatches tb with ⟨evg, rg⟩
      have hng := getCurrentBatches_no_commit _ _ _ _ _ hg
      rcases rg with e' | cb <;> simp only [hg] at h
      · exact absurd (congrArg Prod.snd h) (by simp)
      · rcases hp : env.process tb ⟨cb, cache.lastStateRoot⟩ with e' | ts' <;>
          simp only [hp] at h
        · exact absurd (congrArg Prod.snd h) (by simp)
        · rcases hc : env.checkFlush n with _ | e' <;> simp only [hc] at h
          · rcases hco : env.commit n with _ | e' <;> simp only [hco] at h
            · injection h with h1 h2
              injection h2 with h2
              subst h1
              subst h2
              have hevg : committedList evg = [] := committedList_of_no_commit evg hng
              refine ⟨?_, ?_, tb, evg, cb, rfl, rfl,
                by first | rfl | exact hg, by first | rfl | exact hp,
                rfl, rfl, rfl⟩
              · rw [committedList_append, committedList_append, hevg]
                rfl
              · intro m hm
                simp only [List.cons_append, List.nil_append, List.mem_cons,
                  List.mem_append] at hm
                rcases hm with hm | hm | hm | hm
                · simp at hm
                · simp at hm
                · exact absurd hm (hng m)
                · simp only [List.mem_cons, List.not_mem_nil] at hm
                  rcases hm with hm | hm | hm <;> simp_all
            · exact absurd (congrArg Prod.snd h) (by simp)
          · exact absurd (congrArg Prod.snd h) (by simp)
    · exact absurd (congrArg Prod.snd h) (by simp)

/-- Main loop invariant (by induction on the fuel), in the wrap-free regime
`upTo + 1 < 2 ^ 64` and with fuel covering the whole range: the counter
increment `(n + 1) % 2 ^ 64` never wraps, so on a `done none` exit the
committed batch numbers are exactly `n, n+1, ..., upTo` in ascending order,
and on a `done (some e)` exit there is a batch `k` in range whose iteration
failed with the returned error, the committed numbers are exactly
`n, ..., k-1`, and `k` itself was never committed. -/
theorem syncLoopAux_spec (env : Env) (upTo : Nat) (hw : upTo + 1 < 2 ^ 64) :
    ∀ fuel n cache, upTo + 1 - n ≤ fuel →
      ((syncLoopAux fuel env cache n upTo).2.2 = .done none →
        committedList (syncLoopAux fuel env cache n upTo).1 =
          List.range' n (upTo + 1 - n))
      ∧ (∀ e, (syncLoopAux fuel env cache n upTo).2.2 = .done (some e) →
        ∃ k cacheK evK, n ≤ k ∧ k ≤ upTo ∧
          syncIteration env cacheK k = (evK, .error e) ∧
          committedList (syncLoopAux fuel env cache n upTo).1 = List.range' n (k - n) ∧
          Event.committed k ∉ (syncLoopAux fuel env cache n upTo).1) := by
  intro fuel
  induction fuel with
  | zero =>
    intro n cache hfuel
    have hn : ¬ n ≤ upTo := by omega
    rw [syncLoopAux_exit 0 env cache n upTo hn]
    constructor
    · intro _
      have h0 : upTo + 1 - n = 0 := by omega
      rw [h0]
      simp [committedList]
    · intro e he
      simp at he
  | succ fuel ih =>
    intro n cache hfuel
    by_cases hn : n ≤ upTo
    · have hmod : (n + 1) % 2 ^ 64 = n + 1 := Nat.mod_eq_of_lt (by omega)
      simp only [syncLoopAux, if_pos hn, hmod]
      rcases hit : syncIteration env cache n with ⟨ev, r⟩
      rcases r with e | newTS <;> simp only
      · constructor
        · intro hcontra
          simp at hcontra
        · intro e' he'
          obtain rfl : e = e' := by simpa using he'
          have hnc := syncIteration_error_no_commit env cache n ev e hit
          refine ⟨n, cache, ev, le_refl n, hn, hit, ?_, hnc n⟩
          rw [committedList_of_no_commit ev hnc]
          simp
      · obtain ⟨hcomm, honly, -⟩ := syncIteration_ok_spec env cache n ev newTS hit
        have hih := ih (n + 1) newTS (by omega)
        constructor
        · intro hnone
          have := hih.1 hnone
          rw [committedList_append, hcomm, this]
          have hrange : upTo + 1 - n = (upTo + 1 - (n + 1)) + 1 := by omega
          rw [hrange, List.range'_succ]
          rfl
        · intro e' he'
          obtain ⟨k, cacheK, evK, hk1, hk2, hKit, hKcomm, hKnot⟩ := hih.2 e' he'
          refine ⟨k, cacheK, evK, by omega, hk2, hKit, ?_, ?_⟩
          · rw [committedList_append, hcomm, hKcomm]
            have hrange : k - n = (k - (n + 1)) + 1 := by omega
            rw [hrange, List.range'_succ]
            rfl
          · intro hmem
            rcases List.mem_append.mp hmem with hmem | hmem
            · have := honly k hmem
              omega
            · exact hKnot hmem
    · rw [syncLoopAux_exit (fuel + 1) env cache n upTo hn]
      constructor
      · intro _
        have h0 : upTo + 1 - n = 0 := by omega
        rw [h0]
        simp [committedList]
      · intro e he
        simp at he

theorem pred64_of_pos (n : Nat) (h1 : 1 ≤ n) (h2 : n < 2 ^ 64) : pred64 n = n - 1 := by
  unfold pred64
  have h3 : n + (2 ^ 64 - 1) = (n - 1) + 2 ^ 64 := by omega
  rw [h3, Nat.add_mod_right, Nat.mod_eq_of_lt (by omega)]

theorem pred64_succ (n : Nat) (h : n < 2 ^ 64) : pred64 (n + 1) = n := by
  unfold pred64
  have h3 : n + 1 + (2 ^ 64 - 1) = n + 2 ^ 64 := by omega
  rw [h3, Nat.add_mod_right, Nat.mod_eq_of_lt h]

/-! ### Claim theorems -/

/-- C8: `SyncTrustedState` with progress 0 and with progress 1 are the same
call: same trace of collaborator calls, same final cache, same result, for
every environment, starting cache and iteration budget. -/
theorem start_normalization (fuel : Nat) (env : Env) (cache : TrustedState) :
    SyncTrustedState fuel env cache 0 = SyncTrustedState fuel env cache 1 := rfl

/-- C9: when the cached window's slot 0 is non-nil and its batch number
equals the remote batch's reported number, `getCurrentBatches` returns the
previous window entirely unchanged with zero store lookups — slot 1 is
neither checked against N-1 nor refreshed, whatever it holds. -/
theorem passthrough_when_slot0_matches (store : Nat → LookupResult)
    (batches : List (Option Batch)) (tb : RemoteBatch) (b : Batch)
    (rest : List (Option Batch)) (hb : batches = some b :: rest)
    (hn : b.batchNumber = tb.number) :
    getCurrentBatches store batches tb = ([], .ok batches) := by
  subst hb
  simp [getCurrentBatches, slot0Matches, hn]

/-- Witness for C9: a cached slot 1 numbered 99 (not N-1 = 4) is passed
through untouched when slot 0 matches N = 5, with zero lookups. -/
theorem passthrough_when_slot0_matches_witness :
    getCurrentBatches (fun _ => .notFound) [some ⟨5, 0⟩, some ⟨99, 0⟩] ⟨5, 7⟩ =
      ([], .ok [some ⟨5, 0⟩, some ⟨99, 0⟩]) :=
  passthrough_when_slot0_matches (fun _ => .notFound) _ ⟨5, 7⟩ ⟨5, 0⟩
    [some ⟨99, 0⟩] rfl rfl

/-- C10: the predecessor lookup computes `N - 1` in `uint64` arithmetic: a
remote batch reporting number 0 makes `getCurrentBatches` look slot 1 up at
`2 ^ 64 - 1` (wraparound) rather than treating the predecessor as absent. -/
theorem predecessor_lookup_wraparound (store : Nat → LookupResult)
    (batches : List (Option Batch)) (tb : RemoteBatch) (h0 : tb.number = 0)
    (hm : slot0Matches batches 0 = false)
    (hm' : slot0Matches batches (2 ^ 64 - 1) = false)
    (hnf : ∀ e, store 0 ≠ .failed e) :
    Event.lookedUp (2 ^ 64 - 1) ∈ (getCurrentBatches store batches tb).1 := by
  have hp : pred64 0 = 2 ^ 64 - 1 := by
    unfold pred64
    rw [Nat.zero_add, Nat.mod_eq_of_lt (by omega)]
  unfold getCurrentBatches
  rw [h0, hm]
  rcases hs : store 0 with b | _ | e
  · simp only [hp, hm']
    rcases store (2 ^ 64 - 1) with b' | _ | e' <;> simp
  · simp only [hp, hm']
    rcases store (2 ^ 64 - 1) with b' | _ | e' <;> simp
  · exact absurd hs (hnf e)

/-- Witness for C10: an empty window and a remote batch numbered 0 produce a
slot-1 lookup at `2 ^ 64 - 1`. -/
theorem predecessor_lookup_wraparound_witness :
    Event.lookedUp (2 ^ 64 - 1) ∈
      (getCurrentBatches (fun _ => .notFound) [] ⟨0, 0⟩).1 :=
  predecessor_lookup_wraparound (fun _ => .notFound) [] ⟨0, 0⟩ rfl rfl rfl
    (fun _ h => LookupResult.noConfusion h)

/-- C5: slot 0 is reused with no store lookup at all if and only if the
cached window is non-empty, its slot-0 entry is non-nil and that entry's
number equals the target (that conjunction is exactly `slot0Matches`); and
when the cached slot 0 is numbered `n` and the target is `n + 1`, the only
lookup performed is for `n + 1` — the old slot-0 entry becomes the new
slot 1 with no lookup for `n`. -/
theorem slot0_reuse_iff (store : Nat → LookupResult) (batches : List (Option Batch))
    (tb : RemoteBatch) :
    ((getCurrentBatches store batches tb).1 = [] ↔
      slot0Matches batches tb.number = true)
    ∧ (slot0Matches batches tb.number = true →
        getCurrentBatches store batches tb = ([], .ok batches))
    ∧ (∀ n b rest r, batches = some b :: rest → b.batchNumber = n →
        tb.number = n + 1 → n < 2 ^ 64 → store (n + 1) = r →
        (∀ e, r ≠ .failed e) →
        getCurrentBatches store batches tb = ([.lookedUp (n + 1)], .ok [r.toOpt, some b])) := by
  refine ⟨?_, ?_, ?_⟩
  · constructor
    · intro h
      by_contra hm
      have hm' : slot0Matches batches tb.number = false := by
        simpa using hm
      unfold getCurrentBatches at h
      rw [hm'] at h
      simp only [Bool.false_eq_true, if_false] at h
      rcases hs : store tb.number with b | _ | e <;> rw [hs] at h
      · rcases hm2 : slot0Matches batches (pred64 tb.number) with _ | _ <;> rw [hm2] at h
        · rcases hs2 : store (pred64 tb.number) with b' | _ | e' <;> rw [hs2] at h <;>
            simp at h
        · simp at h
      · rcases hm2 : slot0Matches batches (pred64 tb.number) with _ | _ <;> rw [hm2] at h
        · rcases hs2 : store (pred64 tb.number) with b' | _ | e' <;> rw [hs2] at h <;>
            simp at h
        · simp at h
      · simp at h
    · intro hm
      simp [getCurrentBatches, hm]
  · intro hm
    simp [getCurrentBatches, hm]
  · intro n b rest r hb hbn htb hlt hs hnf
    subst hb
    have hm : slot0Matches (some b :: rest) tb.number = false := by
      simp [slot0Matches, hbn, htb]
    unfold getCurrentBatches
    rw [hm]
    simp only [Bool.false_eq_true, if_false]
    rw [htb, hs, pred64_succ n hlt]
    have hm' : slot0Matches (some b :: rest) n = true := by
      simp [slot0Matches, hbn]
    rcases r with b' | _ | e
    · rw [hm']
      simp [LookupResult.toOpt]
    · rw [hm']
      simp [LookupResult.toOpt]
    · exact absurd rfl (hnf e)

/-- Witness for C5: with cached slot 0 numbered 4 and target 5, the trace is
nonempty (first conjunct, via the stated iff), the reuse equation of the
second conjunct holds when slot 0 matches, and the third conjunct shows the
single lookup at 5 with the old slot-0 entry moved to slot 1. -/
theorem slot0_reuse_iff_witness :
    getCurrentBatches (fun _ => .notFound) [some ⟨4, 0⟩, some ⟨3, 0⟩] ⟨5, 0⟩ =
      ([.lookedUp 5], .ok [none, some ⟨4, 0⟩]) :=
  (slot0_reuse_iff (fun _ => .notFound) [some ⟨4, 0⟩, some ⟨3, 0⟩] ⟨5, 0⟩).2.2
    4 ⟨4, 0⟩ [some ⟨3, 0⟩] .notFound rfl rfl rfl (by norm_num) rfl
    (fun _ h => LookupResult.noConfusion h)

/-- C6: a not-found store result is not an error for either slot of the
window: the slot becomes absent (`none`) and resolution continues, while a
lookup failure other than not-found aborts with that error; on a first-ever
call against an empty store, the window for batch 1 resolves to two absent
slots and the executor is still invoked on that empty window. -/
theorem notfound_tolerated (env : Env) (tb : RemoteBatch) (ts : TrustedState) :
    (∀ store batches, slot0Matches batches tb.number = false →
      store tb.number = .notFound → store (pred64 tb.number) = .notFound →
      slot0Matches batches (pred64 tb.number) = false →
      getCurrentBatches store batches tb =
        ([.lookedUp tb.number, .lookedUp (pred64 tb.number)], .ok [none, none]))
    ∧ (∀ store batches e, slot0Matches batches tb.number = false →
      store tb.number = .failed e →
      getCurrentBatches store batches tb = ([.lookedUp tb.number], .error e))
    ∧ (∀ store batches e, slot0Matches batches tb.number = false →
      (∀ e', store tb.number ≠ .failed e') →
      slot0Matches batches (pred64 tb.number) = false →
      store (pred64 tb.number) = .failed e →
      (getCurrentBatches store batches tb).2 = .error e)
    ∧ (tb.number = 1 → env.fetch 1 = .ok tb → env.beginTx 1 = none →
      (∀ m, env.store 1 m = .notFound) →
      env.process tb ⟨[none, none], none⟩ = .ok ts →
      env.checkFlush 1 = none → env.commit 1 = none →
      syncIteration env ⟨[], none⟩ 1 =
        ([.fetched 1, .txBegan 1, .lookedUp 1, .lookedUp 0, .processed 1,
          .flushChecked 1, .committed 1], .ok ts)) := by
  have hone : pred64 1 = 0 := pred64_succ 0 (by norm_num)
  refine ⟨?_, ?_, ?_, ?_⟩
  · intro store batches hm h0 h1 hm'
    unfold getCurrentBatches
    rw [hm, h0]
    simp [hm', h1, LookupResult.toOpt]
  · intro store batches e hm h0
    unfold getCurrentBatches
    rw [hm, h0]
    simp
  · intro store batches e hm hnf hm' h1
    unfold getCurrentBatches
    rw [hm]
    rcases hs : store tb.number with b | _ | e'
    · simp [hm', h1]
    · simp [hm', h1]
    · exact absurd hs (hnf e')
  · intro h1 hf hb hstore hp hc hco
    have hg : getCurrentBatches (env.store 1) ([] : List (Option Batch)) tb =
        ([.lookedUp 1, .lookedUp 0], .ok [none, none]) := by
      unfold getCurrentBatches
      rw [h1]
      simp [slot0Matches, hstore, hone, LookupResult.toOpt]
    unfold syncIteration
    rw [hf, hb]
    simp only [hg, hp, hc, hco]
    rfl

/-- Witness for C6: against an all-not-found store, the window for batch 1
resolves with both slots absent and the iteration runs the executor and
commits. -/
theorem notfound_tolerated_witness :
    syncIteration
      ⟨.ok 1, fun n => .ok ⟨n, 0⟩, fun _ => none, fun _ _ => .notFound,
        fun _ _ => .ok ⟨[], none⟩, fun _ => none, fun _ => none, fun _ => none⟩
      ⟨[], none⟩ 1 =
      ([.fetched 1, .txBegan 1, .lookedUp 1, .lookedUp 0, .processed 1,
        .flushChecked 1, .committed 1], .ok ⟨[], none⟩) :=
  (notfound_tolerated
      ⟨.ok 1, fun n => .ok ⟨n, 0⟩, fun _ => none, fun _ _ => .notFound,
        fun _ _ => .ok ⟨[], none⟩, fun _ => none, fun _ => none, fun _ => none⟩
      ⟨1, 0⟩ ⟨[], none⟩).2.2.2 rfl rfl rfl (fun _ => rfl) rfl rfl rfl

/-- Counterexample to C1 as originally stated: at progress = tip
= `2 ^ 64 - 1` with every collaborator succeeding, the call does not perform
exactly one iteration at `p` — after committing batch `2 ^ 64 - 1` the
`uint64` counter `batchNumberToSync++` wraps to 0, the loop condition still
holds, and the engine fetches batch 0 next.  Both the commit of `2 ^ 64 - 1`
and a fetch of batch 0 appear in the trace. -/
theorem synchronized_boundary_wrap_counterexample :
    Event.committed (2 ^ 64 - 1) ∈
      (SyncTrustedState 2
        ⟨.ok (2 ^ 64 - 1), fun n => .ok ⟨n, 0⟩, fun _ => none, fun _ _ => .notFound,
          fun tb _ => .ok ⟨[some ⟨tb.number, 0⟩, none], none⟩,
          fun _ => none, fun _ => none, fun _ => none⟩
        ⟨[], none⟩ (2 ^ 64 - 1)).1
    ∧ Event.fetched 0 ∈
      (SyncTrustedState 2
        ⟨.ok (2 ^ 64 - 1), fun n => .ok ⟨n, 0⟩, fun _ => none, fun _ _ => .notFound,
          fun tb _ => .ok ⟨[some ⟨tb.number, 0⟩, none], none⟩,
          fun _ => none, fun _ => none, fun _ => none⟩
        ⟨[], none⟩ (2 ^ 64 - 1)).1 := by
  constructor <;> decide

/-- C1 (amended): with `p` the progress after normalizing 0 to 1 and `t` the
remote tip, the engine is synchronized exactly when `t < p`; when `t < p`
the call returns success with an empty trace (no fetch, no transaction);
when `t = p` and `p` is below the `uint64` boundary `2 ^ 64 - 1` the call is
exactly one loop iteration processing the batch at `p`; and the trace is
empty precisely when `t < p`.  At `p = t = 2 ^ 64 - 1` a successful
iteration wraps the counter to 0 and the loop continues, so the
one-iteration clause needs the boundary hypothesis. -/
theorem synchronized_strictly_below (env : Env) (cache : TrustedState) (p t fuel : Nat)
    (ht : env.tip = .ok t) (hfuel : 1 ≤ fuel) :
    (isSyncrhonizedTrustedState t (if p = 0 then 1 else p) = true ↔
      t < (if p = 0 then 1 else p))
    ∧ (t < (if p = 0 then 1 else p) →
        SyncTrustedState fuel env cache p = ([], cache, .done none))
    ∧ (t = (if p = 0 then 1 else p) → t + 1 < 2 ^ 64 →
        SyncTrustedState fuel env cache p =
          match syncIteration env cache t with
          | (ev, .error e) => (ev, cache, .done (some e))
          | (ev, .ok newTS) => (ev, newTS, .done none))
    ∧ ((SyncTrustedState fuel env cache p).1 = [] ↔ t < (if p = 0 then 1 else p)) := by
  obtain ⟨f, rfl⟩ : ∃ f, fuel = f + 1 := ⟨fuel - 1, by omega⟩
  have hsync : ∀ a b : Nat, isSyncrhonizedTrustedState a b = true ↔ a < b := by
    intro a b
    simp [isSyncrhonizedTrustedState]
  have hlt : ∀ h : t < (if p = 0 then 1 else p),
      SyncTrustedState (f + 1) env cache p = ([], cache, .done none) := by
    intro h
    unfold SyncTrustedState
    rw [ht]
    simp only [if_pos ((hsync t _).mpr h)]
  have heq : t = (if p = 0 then 1 else p) → t + 1 < 2 ^ 64 →
      SyncTrustedState (f + 1) env cache p =
        match syncIteration env cache t with
        | (ev, .error e) => (ev, cache, .done (some e))
        | (ev, .ok newTS) => (ev, newTS, .done none) := by
    intro h hb
    unfold SyncTrustedState
    rw [ht]
    have hnot : isSyncrhonizedTrustedState t (if p = 0 then 1 else p) = false := by
      rw [← h]
      simp [isSyncrhonizedTrustedState]
    simp only [hnot, Bool.false_eq_true, if_false]
    rw [← h, syncFrom_succ, if_pos (le_refl t)]
    have hmod : (t + 1) % 2 ^ 64 = t + 1 := Nat.mod_eq_of_lt hb
    have hexit : ∀ c : TrustedState,
        syncTrustedBatchesToFrom f env c (t + 1) t = ([], c, .done none) :=
      fun c => syncLoopAux_exit f env c (t + 1) t (by omega)
    rcases hit : syncIteration env cache t with ⟨ev, r⟩
    rcases r with e | newTS
    · rfl
    · show (ev ++ (syncTrustedBatchesToFrom f env newTS ((t + 1) % 2 ^ 64) t).1, _, _) = _
      rw [hmod, hexit newTS]
      simp
  refine ⟨hsync t _, hlt, heq, ?_, fun h => by rw [hlt h]⟩
  intro h
  by_contra hge
  have hge' : (if p = 0 then 1 else p) ≤ t := by omega
  unfold SyncTrustedState at h
  rw [ht] at h
  have hnot : isSyncrhonizedTrustedState t (if p = 0 then 1 else p) = false := by
    simp only [isSyncrhonizedTrustedState, decide_eq_false_iff_not]
    omega
  simp only [hnot, Bool.false_eq_true, if_false] at h
  rw [syncFrom_succ, if_pos hge'] at h
  obtain ⟨rest0, hr⟩ := syncIteration_trace_shape env cache (if p = 0 then 1 else p)
  rcases hit : syncIteration env cache (if p = 0 then 1 else p) with ⟨ev, r⟩
  rw [hit] at hr
  simp only at hr
  subst hr
  rcases r with e | newTS <;> rw [hit] at h <;> simp at h

/-- Witness for C1: remote tip 3 strictly below progress 5 yields success,
no events, unchanged cache. -/
theorem synchronized_strictly_below_witness :
    SyncTrustedState 1
      ⟨.ok 3, fun n => .ok ⟨n, 0⟩, fun _ => none, fun _ _ => .notFound,
        fun _ _ => .ok ⟨[], none⟩, fun _ => none, fun _ => none, fun _ => none⟩
      ⟨[], none⟩ 5 = ([], ⟨[], none⟩, .done none) :=
  (synchronized_strictly_below
      ⟨.ok 3, fun n => .ok ⟨n, 0⟩, fun _ => none, fun _ _ => .notFound,
        fun _ _ => .ok ⟨[], none⟩, fun _ => none, fun _ => none, fun _ => none⟩
      ⟨[], none⟩ 5 3 1 rfl (by norm_num)).2.1 (by norm_num)

/-- C2: an error from the executor (`ProcessTrustedBatch`) or from the flush
check (`CheckFlushID`) makes the iteration roll back the open transaction
and return `rollbackResult`: the original error when the rollback succeeds,
the rollback's own error when the rollback fails. -/
theorem rollback_on_domain_error (env : Env) (cache : TrustedState) (n : Nat)
    (tb : RemoteBatch) (hf : env.fetch n = .ok tb) (hb : env.beginTx n = none) :
    (∀ evg cb e,
      getCurrentBatches (env.store n) cache.lastTrustedBatches tb = (evg, .ok cb) →
      env.process tb ⟨cb, cache.lastStateRoot⟩ = .error e →
      syncIteration env cache n =
        ([.fetched n, .txBegan n] ++ evg ++ [.processed n, .rolledBack n],
          .error (rollbackResult env n e)))
    ∧ (∀ evg cb newTS e,
      getCurrentBatches (env.store n) cache.lastTrustedBatches tb = (evg, .ok cb) →
      env.process tb ⟨cb, cache.lastStateRoot⟩ = .ok newTS →
      env.checkFlush n = some e →
      syncIteration env cache n =
        ([.fetched n, .txBegan n] ++ evg ++
            [.processed n, .flushChecked n, .rolledBack n],
          .error (rollbackResult env n e)))
    ∧ (∀ e, env.rollbackRes n = none → rollbackResult env n e = e)
    ∧ (∀ e re, env.rollbackRes n = some re → rollbackResult env n e = re) := by
  refine ⟨?_, ?_, ?_, ?_⟩
  · intro evg cb e hg hp
    unfold syncIteration
    rw [hf, hb]
    simp only [hg, hp]
  · intro evg cb newTS e hg hp hc
    unfold syncIteration
    rw [hf, hb]
    simp only [hg, hp, hc]
  · intro e hr
    unfold rollbackResult
    rw [hr]
  · intro e re hr
    unfold rollbackResult
    rw [hr]

/-- Witness for C2: an executor failure (error 7) at batch 3 with a failing
rollback (error 9) returns the rollback error; `rollbackResult` evaluates to
9 there. -/
theorem rollback_on_domain_error_witness :
    syncIteration
      ⟨.ok 3, fun n => .ok ⟨n, 0⟩, fun _ => none, fun _ _ => .notFound,
        fun _ _ => .error 7, fun _ => none, fun _ => none, fun _ => some 9⟩
      ⟨[], none⟩ 3 =
      ([.fetched 3, .txBegan 3] ++ [.lookedUp 3, .lookedUp 2] ++
          [.processed 3, .rolledBack 3],
        .error 9) :=
  (rollback_on_domain_error
      ⟨.ok 3, fun n => .ok ⟨n, 0⟩, fun _ => none, fun _ _ => .notFound,
        fun _ _ => .error 7, fun _ => none, fun _ => none, fun _ => some 9⟩
      ⟨[], none⟩ 3 ⟨3, 0⟩ rfl rfl).1 [.lookedUp 3, .lookedUp 2] [none, none] 7
    rfl rfl

/-- Counterexample to C3 as originally stated: with progress `2 ^ 64 - 2`
and tip `2 ^ 64 - 1`, both in-range iterations succeed and commit, the
`uint64` counter then wraps to 0 and the executor fails at batch 0 with
error 42.  The call returns an iteration error even though every batch of
the range `[from, tip]` is committed — no batch `k` of the range is absent,
so the committed set is `range' lo (k - lo)` for no `k` in range — and the
engine fetched batch 0, outside the range and not in ascending order. -/
theorem ascending_commits_wrap_counterexample :
    (syncTrustedBatchesToFrom 3
      ⟨.ok (2 ^ 64 - 1), fun n => .ok ⟨n, 0⟩, fun _ => none, fun _ _ => .notFound,
        fun tb _ => if tb.number = 0 then .error 42
          else .ok ⟨[some ⟨tb.number, 0⟩, none], none⟩,
        fun _ => none, fun _ => none, fun _ => none⟩
      ⟨[], none⟩ (2 ^ 64 - 2) (2 ^ 64 - 1)).2.2 = .done (some 42)
    ∧ committedList
        (syncTrustedBatchesToFrom 3
          ⟨.ok (2 ^ 64 - 1), fun n => .ok ⟨n, 0⟩, fun _ => none, fun _ _ => .notFound,
            fun tb _ => if tb.number = 0 then .error 42
              else .ok ⟨[some ⟨tb.number, 0⟩, none], none⟩,
            fun _ => none, fun _ => none, fun _ => none⟩
          ⟨[], none⟩ (2 ^ 64 - 2) (2 ^ 64 - 1)).1 = [2 ^ 64 - 2, 2 ^ 64 - 1]
    ∧ Event.fetched 0 ∈
        (syncTrustedBatchesToFrom 3
          ⟨.ok (2 ^ 64 - 1), fun n => .ok ⟨n, 0⟩, fun _ => none, fun _ _ => .notFound,
            fun tb _ => if tb.number = 0 then .error 42
              else .ok ⟨[some ⟨tb.number, 0⟩, none], none⟩,
            fun _ => none, fun _ => none, fun _ => none⟩
          ⟨[], none⟩ (2 ^ 64 - 2) (2 ^ 64 - 1)).1 := by
  refine ⟨by decide, by decide, by decide⟩

/-- C3 (amended): in the wrap-free regime — tip strictly below the `uint64`
boundary `2 ^ 64 - 1` — and with the iteration budget covering the range,
the loop commits batch numbers in ascending order over `[lo, upTo]`; on
success every number through `upTo` is committed, and on failure there is a
batch `k` in range whose iteration produced the returned error, batches
`lo..k-1` are committed (exactly `range' lo (k - lo)`), and batch `k` itself
was never committed.  At tip `2 ^ 64 - 1` the counter wraps past the range
— see the counterexample. -/
theorem ascending_commits_partial_durability (env : Env) (cache : TrustedState)
    (lo upTo fuel : Nat) (hw : upTo + 1 < 2 ^ 64) (hfuel : upTo + 1 - lo ≤ fuel) :
    ((syncTrustedBatchesToFrom fuel env cache lo upTo).2.2 = .done none →
      committedList (syncTrustedBatchesToFrom fuel env cache lo upTo).1 =
        List.range' lo (upTo + 1 - lo))
    ∧ (∀ e, (syncTrustedBatchesToFrom fuel env cache lo upTo).2.2 = .done (some e) →
      ∃ k cacheK evK, lo ≤ k ∧ k ≤ upTo ∧
        syncIteration env cacheK k = (evK, .error e) ∧
        committedList (syncTrustedBatchesToFrom fuel env cache lo upTo).1 =
          List.range' lo (k - lo) ∧
        Event.committed k ∉ (syncTrustedBatchesToFrom fuel env cache lo upTo).1) :=
  syncLoopAux_spec env upTo hw fuel lo cache hfuel

/-- Witness for C3: syncing `[5, 10]` with the executor failing at batch 8
(error 42) leaves exactly batches 5–7 committed, batch 8 uncommitted, and
returns error 42. -/
theorem ascending_commits_partial_durability_witness :
    ∃ k cacheK evK, 5 ≤ k ∧ k ≤ 10 ∧
      syncIteration
        ⟨.ok 10, fun n => .ok ⟨n, 0⟩, fun _ => none, fun _ _ => .notFound,
          fun tb _ => if tb.number = 8 then .error 42
            else .ok ⟨[some ⟨tb.number, 0⟩, none], none⟩,
          fun _ => none, fun _ => none, fun _ => none⟩ cacheK k = (evK, .error 42) ∧
      committedList
        (syncTrustedBatchesToFrom 6
          ⟨.ok 10, fun n => .ok ⟨n, 0⟩, fun _ => none, fun _ _ => .notFound,
            fun tb _ => if tb.number = 8 then .error 42
              else .ok ⟨[some ⟨tb.number, 0⟩, none], none⟩,
            fun _ => none, fun _ => none, fun _ => none⟩ ⟨[], none⟩ 5 10).1 =
        List.range' 5 (k - 5) ∧
      Event.committed k ∉
        (syncTrustedBatchesToFrom 6
          ⟨.ok 10, fun n => .ok ⟨n, 0⟩, fun _ => none, fun _ _ => .notFound,
            fun tb _ => if tb.number = 8 then .error 42
              else .ok ⟨[some ⟨tb.number, 0⟩, none], none⟩,
            fun _ => none, fun _ => none, fun _ => none⟩ ⟨[], none⟩ 5 10).1 :=
  (ascending_commits_partial_durability
      ⟨.ok 10, fun n => .ok ⟨n, 0⟩, fun _ => none, fun _ _ => .notFound,
        fun tb _ => if tb.number = 8 then .error 42
          else .ok ⟨[some ⟨tb.number, 0⟩, none], none⟩,
        fun _ => none, fun _ => none, fun _ => none⟩ ⟨[], none⟩ 5 10 6
      (by norm_num) (by norm_num)).2 42 rfl

/-- C4: the in-memory cache is replaced by the executor's returned window
only after a successful commit.  On any iteration error the loop returns the
cache unchanged; a commit failure aborts with the commit error as-is and a
trace containing no rollback; a successful commit makes the continuation run
with the executor's output as the new cache (at the wrapped successor
counter `(n + 1) % 2 ^ 64` and one less unit of iteration budget). -/
theorem cache_replaced_only_after_commit (env : Env) (cache : TrustedState)
    (n upTo fuel : Nat) (hn : n ≤ upTo) :
    (∀ ev e, syncIteration env cache n = (ev, .error e) →
      syncTrustedBatchesToFrom (fuel + 1) env cache n upTo =
        (ev, cache, .done (some e)))
    ∧ (∀ tb evg cb newTS, env.fetch n = .ok tb → env.beginTx n = none →
      getCurrentBatches (env.store n) cache.lastTrustedBatches tb = (evg, .ok cb) →
      env.process tb ⟨cb, cache.lastStateRoot⟩ = .ok newTS →
      env.checkFlush n = none →
      ((∀ e, env.commit n = some e →
          syncTrustedBatchesToFrom (fuel + 1) env cache n upTo =
            ([.fetched n, .txBegan n] ++ evg ++ [.processed n, .flushChecked n],
              cache, .done (some e)))
        ∧ (env.commit n = none →
          syncTrustedBatchesToFrom (fuel + 1) env cache n upTo =
            ([.fetched n, .txBegan n] ++ evg ++
                [.processed n, .flushChecked n, .committed n] ++
                (syncTrustedBatchesToFrom fuel env newTS ((n + 1) % 2 ^ 64) upTo).1,
              (syncTrustedBatchesToFrom fuel env newTS ((n + 1) % 2 ^ 64) upTo).2.1,
              (syncTrustedBatchesToFrom fuel env newTS ((n + 1) % 2 ^ 64) upTo).2.2)))) := by
  constructor
  · intro ev e hit
    rw [syncFrom_succ, if_pos hn, hit]
  · intro tb evg cb newTS hf hb hg hp hc
    constructor
    · intro e hco
      have hit : syncIteration env cache n =
          ([.fetched n, .txBegan n] ++ evg ++ [.processed n, .flushChecked n],
            .error e) := by
        unfold syncIteration
        rw [hf, hb]
        simp only [hg, hp, hc, hco]
      rw [syncFrom_succ, if_pos hn, hit]
    · intro hco
      have hit : syncIteration env cache n =
          ([.fetched n, .txBegan n] ++ evg ++
              [.processed n, .flushChecked n, .committed n],
            .ok newTS) := by
        unfold syncIteration
        rw [hf, hb]
        simp only [hg, hp, hc, hco]
      rw [syncFrom_succ, if_pos hn, hit]

/-- Witness for C4: a commit failure (error 13) at batch 2 of range `[2, 4]`
aborts with error 13, no rollback event, and the cache untouched. -/
theorem cache_replaced_only_after_commit_witness :
    syncTrustedBatchesToFrom 3
      ⟨.ok 4, fun n => .ok ⟨n, 0⟩, fun _ => none, fun _ _ => .notFound,
        fun tb _ => .ok ⟨[some ⟨tb.number, 0⟩, none], none⟩,
        fun _ => none, fun _ => some 13, fun _ => none⟩ ⟨[], none⟩ 2 4 =
      ([.fetched 2, .txBegan 2] ++ [.lookedUp 2, .lookedUp 1] ++
          [.processed 2, .flushChecked 2],
        ⟨[], none⟩, .done (some 13)) :=
  ((cache_replaced_only_after_commit
      ⟨.ok 4, fun n => .ok ⟨n, 0⟩, fun _ => none, fun _ _ => .notFound,
        fun tb _ => .ok ⟨[some ⟨tb.number, 0⟩, none], none⟩,
        fun _ => none, fun _ => some 13, fun _ => none⟩ ⟨[], none⟩ 2 4 2
      (by norm_num)).2 ⟨2, 0⟩ [.lookedUp 2, .lookedUp 1] [none, none]
      ⟨[some ⟨2, 0⟩, none], none⟩ rfl rfl rfl rfl rfl).1 13 rfl

/-- `slot0Matches` inversion. -/
theorem slot0Matches_true (batches : List (Option Batch)) (x : Nat)
    (h : slot0Matches batches x = true) :
    ∃ b rest, batches = some b :: rest ∧ b.batchNumber = x := by
  unfold slot0Matches at h
  rcases batches with _ | ⟨hd, rest⟩
  · simp at h
  · rcases hd with _ | b
    · simp at h
    · exact ⟨b, rest, rfl, by simpa using h⟩

/-- A freshly resolved or reused window is contiguous, provided the store
returns batches carrying the requested number and the target number is a
positive `uint64` value. -/
theorem getCurrentBatches_contiguous (store : Nat → LookupResult)
    (batches : List (Option Batch)) (tb : RemoteBatch) (evg : List Event)
    (cb : List (Option Batch))
    (hstore : ∀ m b, store m = .found b → b.batchNumber = m)
    (h1 : 1 ≤ tb.number) (h2 : tb.number < 2 ^ 64)
    (hbat : windowContiguous batches = true)
    (hg : getCurrentBatches store batches tb = (evg, .ok cb)) :
    windowContiguous cb = true := by
  have hpred : pred64 tb.number = tb.number - 1 := pred64_of_pos _ h1 h2
  unfold getCurrentBatches at hg
  by_cases hm : slot0Matches batches tb.number = true
  · rw [if_pos hm] at hg
    rw [Prod.mk.injEq, Except.ok.injEq] at hg
    rw [← hg.2]
    exact hbat
  · rw [if_neg hm] at hg
    rcases hs : store tb.number with b0 | _ | e <;> rw [hs] at hg <;>
      simp only [] at hg
    · by_cases hm2 : slot0Matches batches (pred64 tb.number) = true
      · rw [if_pos hm2] at hg
        rw [Prod.mk.injEq, Except.ok.injEq] at hg
        obtain ⟨b1, rest, hbs, hb1⟩ := slot0Matches_true batches (pred64 tb.number) hm2
        have hb0 : b0.batchNumber = tb.number := hstore _ _ hs
        rw [← hg.2, hbs]
        simp only [LookupResult.toOpt, List.headD]
        show (b0.batchNumber == b1.batchNumber + 1) = true
        simp only [beq_iff_eq]
        omega
      · rw [if_neg hm2] at hg
        rcases hs2 : store (pred64 tb.number) with b1 | _ | e' <;> rw [hs2] at hg <;>
          simp only [] at hg
        · rw [Prod.mk.injEq, Except.ok.injEq] at hg
          have hb0 : b0.batchNumber = tb.number := hstore _ _ hs
          have hb1 : b1.batchNumber = pred64 tb.number := hstore _ _ hs2
          rw [← hg.2]
          show (b0.batchNumber == b1.batchNumber + 1) = true
          simp only [beq_iff_eq]
          omega
        · rw [Prod.mk.injEq, Except.ok.injEq] at hg
          rw [← hg.2]
          rfl
        · exact absurd (congrArg Prod.snd hg) (by simp)
    · by_cases hm2 : slot0Matches batches (pred64 tb.number) = true
      · rw [if_pos hm2] at hg
        rw [Prod.mk.injEq, Except.ok.injEq] at hg
        rw [← hg.2]
        rfl
      · rw [if_neg hm2] at hg
        rcases hs2 : store (pred64 tb.number) with b1 | _ | e' <;> rw [hs2] at hg <;>
          simp only [] at hg
        · rw [Prod.mk.injEq, Except.ok.injEq] at hg
          rw [← hg.2]
          rfl
        · rw [Prod.mk.injEq, Except.ok.injEq] at hg
          rw [← hg.2]
          rfl
        · exact absurd (congrArg Prod.snd hg) (by simp)
    · exact absurd (congrArg Prod.snd hg) (by simp)

/-- The loop preserves contiguity of the engine cache when the executor only
ever returns contiguous windows. -/
theorem syncLoopAux_contiguous (env : Env) (upTo : Nat)
    (hexec : ∀ tb ts ts', env.process tb ts = .ok ts' →
      windowContiguous ts'.lastTrustedBatches = true) :
    ∀ fuel n cache, windowContiguous cache.lastTrustedBatches = true →
      windowContiguous
        (syncLoopAux fuel env cache n upTo).2.1.lastTrustedBatches = true := by
  intro fuel
  induction fuel with
  | zero =>
    intro n cache hc
    simp only [syncLoopAux]
    split <;> exact hc
  | succ fuel ih =>
    intro n cache hc
    simp only [syncLoopAux]
    split
    · rcases hit : syncIteration env cache n with ⟨ev, r⟩
      rcases r with e | newTS <;> simp only
      · exact hc
      · obtain ⟨-, -, tb, evg, cb, -, -, -, hp, -, -, -⟩ :=
          syncIteration_ok_spec env cache n ev newTS hit
        exact ih ((n + 1) % 2 ^ 64) newTS (hexec _ _ _ hp)
    · exact hc

/-- C7: whenever both slots of a window are populated, slot 0's number is
slot 1's plus one — windows produced by `getCurrentBatches` (the windows
passed to the executor) satisfy this, and the engine cache keeps satisfying
it across the loop's replace-on-commit updates, under the collaborator
contracts: the store returns the batch with the requested number, fetched
batches report positive `uint64` numbers, and the executor returns
contiguous windows. -/
theorem window_contiguity_invariant (env : Env) (cache : TrustedState)
    (lo upTo fuel : Nat)
    (hstore : ∀ n m b, env.store n m = .found b → b.batchNumber = m)
    (hfetch : ∀ n tb, env.fetch n = .ok tb → 1 ≤ tb.number ∧ tb.number < 2 ^ 64)
    (hexec : ∀ tb ts ts', env.process tb ts = .ok ts' →
      windowContiguous ts'.lastTrustedBatches = true)
    (hcache : windowContiguous cache.lastTrustedBatches = true) :
    (∀ n tb evg cb batches, env.fetch n = .ok tb →
      windowContiguous batches = true →
      getCurrentBatches (env.store n) batches tb = (evg, .ok cb) →
      windowContiguous cb = true)
    ∧ windowContiguous
        (syncTrustedBatchesToFrom fuel env cache lo upTo).2.1.lastTrustedBatches = true :=
  ⟨fun n tb evg cb batches hf hbat hg =>
    getCurrentBatches_contiguous (env.store n) batches tb evg cb (hstore n)
      (hfetch n tb hf).1 (hfetch n tb hf).2 hbat hg,
   syncLoopAux_contiguous env upTo hexec fuel lo cache hcache⟩

/-- Witness for C7: a run over `[1, 3]` with an executor returning empty
windows keeps the engine cache contiguous. -/
theorem window_contiguity_invariant_witness :
    windowContiguous
      (syncTrustedBatchesToFrom 3
        ⟨.ok 3, fun _ => .ok ⟨1, 0⟩, fun _ => none, fun _ _ => .notFound,
          fun _ _ => .ok ⟨[], none⟩, fun _ => none, fun _ => none, fun _ => none⟩
        ⟨[], none⟩ 1 3).2.1.lastTrustedBatches = true :=
  (window_contiguity_invariant
      ⟨.ok 3, fun _ => .ok ⟨1, 0⟩, fun _ => none, fun _ _ => .notFound,
        fun _ _ => .ok ⟨[], none⟩, fun _ => none, fun _ => none, fun _ => none⟩
      ⟨[], none⟩ 1 3 3
      (fun n m b h => LookupResult.noConfusion h)
      (fun n tb h => by
        injection h with h2
        subst h2
        exact ⟨by norm_num, by norm_num⟩)
      (fun tb ts ts' h => by
        injection h with h2
        subst h2
        rfl)
      rfl).2

end X1Sync
